import Mathlib

/-!
Verification development for the manga-job script (src/main.py).

The Python source is shallowly embedded: every pure computation becomes a
Lean function, every effectful step (file reads, network requests, SMTP)
is parameterised by the outcome the environment would produce, and the
observable results (return values, files written, messages printed,
sleeps performed) are returned explicitly.
-/

set_option autoImplicit false

namespace MangaJob

/-! ### Constants (src/main.py lines 28-33) -/

/-- IMAGES_TO_DOWNLOAD = 10 (src/main.py line 28). -/
def IMAGES_TO_DOWNLOAD : Nat := 10

/-- MAX_EMAIL_SIZE_BYTES = 18 * 1024 * 1024 (src/main.py line 33).
Byte totals are carried as Int, matching Python's unbounded int. -/
def MAX_EMAIL_SIZE_BYTES : Int := 18 * 1024 * 1024

/-! ### Budgeted packager: the size-check logic of send_email
(src/main.py lines 179-204). -/

/-- One loaded image of send_email's size-check phase: the dict
{"name", "data", "size", "path"} built at line 189; only the path and the
byte count (len of the data) are relevant to the claims. -/
structure LoadedImage where
  path : String
  size : Nat
deriving DecidableEq

/-- Running total of the sizes of the loaded images: total_size at
lines 180/190, an unbounded Python int. -/
def totalSize (loaded : List LoadedImage) : Int :=
  (loaded.map (fun i => (i.size : Int))).sum

/-- The while loop of src/main.py lines 197-200:
while total_size > MAX_EMAIL_SIZE_BYTES and len(loaded_images) > 0:
pop the last image and subtract its size.  The loop is embedded with a
fuel argument; each iteration removes one element, so fuel equal to the
list length makes the embedding exact (when fuel runs out the list is
already empty and the Python loop would stop too). -/
def trimStep : Nat → List LoadedImage → Int → List LoadedImage × Int
  | 0, loaded, total => (loaded, total)
  | fuel + 1, loaded, total =>
    if h : MAX_EMAIL_SIZE_BYTES < total ∧ loaded ≠ [] then
      trimStep fuel loaded.dropLast (total - ((loaded.getLast h.2).size : Int))
    else (loaded, total)

/-- The whole size-check phase on an already-loaded image list: start from
the summed total (line 190) and run the trimming loop (lines 197-200). -/
def trimToBudget (loaded : List LoadedImage) : List LoadedImage × Int :=
  trimStep loaded.length loaded (totalSize loaded)

/-- The image-loading loop of src/main.py lines 183-192: each path is
opened and read; a path whose read raises is skipped with a warning.  The
local filesystem is modelled as a map from path to Option of byte count
(none = open/read raises). -/
def loadImages (fs : String → Option Nat) : List String → List LoadedImage
  | [] => []
  | p :: rest =>
    match fs p with
    | some sz => ⟨p, sz⟩ :: loadImages fs rest
    | none => loadImages fs rest

/-- Observable outcome of send_email (src/main.py lines 175-241):
the returned boolean, whether the SMTP send was attempted (lines 232-241),
and the paths attached to the message (lines 227-230). -/
structure SendResult where
  returned : Bool
  sendAttempted : Bool
  attachments : List String
deriving DecidableEq

/-- send_email's control flow: load the readable images, trim to the
budget, return False without sending when no image remains (lines
202-204); otherwise attach the surviving images and attempt the send,
whose success is the environment parameter smtpOk. -/
def send_email (fs : String → Option Nat) (smtpOk : Bool)
    (image_paths : List String) : SendResult :=
  let loaded := loadImages fs image_paths
  let trimmed := trimToBudget loaded
  if trimmed.1 = [] then ⟨false, false, []⟩
  else ⟨smtpOk, true, trimmed.1.map LoadedImage.path⟩

/-! ### History store (src/main.py lines 46-62).
The history file is modelled by its observable states; the stored set is a
JSON array of id strings, modelled as a Lean list. -/

/-- The possible states of the history file as src/main.py lines 46-54
distinguish them: the file may be absent (os.path.exists false), it may
exist but open()/read raise something other than json.JSONDecodeError
(e.g. PermissionError, IsADirectoryError, or UnicodeDecodeError on
non-UTF-8 bytes) — the except clause at line 51 does not catch those —
it may raise json.JSONDecodeError, or it may parse to a list of ids. -/
inductive HistFile where
  | missing
  | unreadable
  | malformed
  | parsed (ids : List String)
deriving DecidableEq

/-- load_history (src/main.py lines 46-54).  Fallible code is embedded as
Except: the error case is an exception escaping the function, which only
happens when the file exists and open/read raise something other than
json.JSONDecodeError. -/
def load_history : HistFile → Except String (List String)
  | .missing => .ok []
  | .unreadable => .error "uncaught exception from open or read"
  | .malformed => .ok []
  | .parsed ids => .ok ids

/-- Whether load_history prints the corruption warning of line 52. -/
def load_history_warned : HistFile → Bool
  | .malformed => true
  | _ => false

/-- save_history (src/main.py lines 56-62) acting on the stored set: if
the id is already present the file is untouched, otherwise the id is
appended and the list written back. -/
def save_history (history : List String) (sent_id : String) : List String :=
  if sent_id ∈ history then history else history ++ [sent_id]

/-! ### Selector, Mode B (src/main.py lines 64-126). -/

/-- The fields of the dict returned by get_fresh_trending_manga at lines
98-101 that the claims mention; selection itself only reads the id. -/
structure Manga where
  id : String
  title : String
deriving DecidableEq

/-- The selection loop of get_fresh_trending_manga (src/main.py lines
88-103): scan the server-ordered listing and return the first manga whose
id is not in history; if the loop ends, return None. -/
def get_fresh_trending_manga (history : List String) : List Manga → Option Manga
  | [] => none
  | m :: rest =>
    if m.id ∈ history then get_fresh_trending_manga history rest else some m

/-- One chapter of the listing: its id and its declared chapter number
(chapter["attributes"].get("chapter", ""), line 118 — "" when absent). -/
structure Chapter where
  id : String
  chapter : String
deriving DecidableEq

/-- Python's s.replace(".", "", 1) on the character list: drop the first
dot, keep everything else. -/
def removeFirstDot : List Char → List Char
  | [] => []
  | c :: cs => if c = '.' then cs else c :: removeFirstDot cs

/-- String form of removeFirstDot. -/
def pyReplaceDotOnce (s : String) : String := String.mk (removeFirstDot s.data)

/-- Python's str.isdigit over the ASCII digits the source deals in: false
on the empty string, true iff every character is a digit. -/
def pyIsDigit (s : String) : Bool := !s.data.isEmpty && s.data.all Char.isDigit

/-- The eligibility test of src/main.py line 119:
ch_num == "1" or ch_num == "0" or (ch_num and ch_num.replace(".", "", 1).isdigit()). -/
def chapterEligible (ch_num : String) : Bool :=
  ch_num == "1" || ch_num == "0" ||
    (!(ch_num == "") && pyIsDigit (pyReplaceDotOnce ch_num))

/-- The selection loop of get_first_chapter (src/main.py lines 117-123):
return the first chapter of the server-ordered listing whose declared
number is eligible, else None. -/
def get_first_chapter : List Chapter → Option Chapter
  | [] => none
  | c :: rest =>
    if chapterEligible c.chapter then some c else get_first_chapter rest

/-! ### Fetcher (src/main.py lines 128-173). -/

/-- Outcome the network produces for one requests.get of a page image:
a 200 response, a non-200 response (no exception, the status test at line
160 fails), or a raised exception (caught by the bare except, line 166). -/
inductive Attempt where
  | ok
  | httpFail
  | exn
deriving DecidableEq

/-- One entry of the chapter's file list together with the outcomes the
network would give to successive retrieval attempts for it. -/
structure PageFile where
  filename : String
  attempts : List Attempt
deriving DecidableEq

/-- Observable outcome of the retry loop for one page (src/main.py lines
157-167): whether the page was stored, how many attempts were made, and
how many times time.sleep(1) ran (the except clause sleeps; a non-200
response retries without sleeping). -/
structure RetryResult where
  success : Bool
  tried : Nat
  sleeps : Nat
deriving DecidableEq

/-- The per-page retry loop, for _ in range(2) embedded as a walk over the
list of attempt outcomes (the caller passes the first two): stop at the
first 200 response; a non-200 response just falls through to the next
iteration; an exception sleeps one second and then the next iteration (if
any) runs. -/
def retryPage : List Attempt → RetryResult
  | [] => ⟨false, 0, 0⟩
  | Attempt.ok :: _ => ⟨true, 1, 0⟩
  | Attempt.httpFail :: rest =>
    let r := retryPage rest
    ⟨r.success, r.tried + 1, r.sleeps⟩
  | Attempt.exn :: rest =>
    let r := retryPage rest
    ⟨r.success, r.tried + 1, r.sleeps + 1⟩

/-- The download loop of src/main.py lines 147-168: walk the file list in
order; break once count reaches IMAGES_TO_DOWNLOAD; otherwise run the
retry loop for the page and, on success, record its path and bump the
count.  Returns the recorded paths in order together with the total
number of sleeps performed. -/
def downloadLoop : Nat → List PageFile → List String × Nat
  | _, [] => ([], 0)
  | count, f :: rest =>
    if IMAGES_TO_DOWNLOAD ≤ count then ([], 0)
    else
      let r := retryPage (f.attempts.take 2)
      if r.success then
        let d := downloadLoop (count + 1) rest
        (f.filename :: d.1, r.sleeps + d.2)
      else
        let d := downloadLoop count rest
        (d.1, r.sleeps + d.2)

/-- download_images (src/main.py lines 128-173) after a successful
at-home-server resolution: the loop starting with count = 0. -/
def download_images (files : List PageFile) : List String × Nat :=
  downloadLoop 0 files

/-! ### Orchestrator (src/main.py lines 243-268) and startup config check
(lines 14-19). -/

/-- Observable outcome of one run of main(): which manga id was selected,
which chapter id was selected, the downloaded image paths (some = the
download stage ran), the boolean send_email returned (some = the send
stage ran), and the content of the history store afterwards. -/
structure MainResult where
  selected : Option String
  chapterSelected : Option String
  downloaded : Option (List String)
  emailResult : Option Bool
  history : List String
deriving DecidableEq

/-- main (src/main.py lines 243-265): run the pipeline, short-circuiting
on each empty stage result, and call save_history only when send_email
returned True (lines 254-255). -/
def mainRun (history : List String) (listing : List Manga)
    (chaptersOf : String → List Chapter) (pagesOf : String → List PageFile)
    (fs : String → Option Nat) (smtpOk : Bool) : MainResult :=
  match get_fresh_trending_manga history listing with
  | none => ⟨none, none, none, none, history⟩
  | some m =>
    match get_first_chapter (chaptersOf m.id) with
    | none => ⟨some m.id, none, none, none, history⟩
    | some ch =>
      let images := (download_images (pagesOf ch.id)).1
      if images = [] then ⟨some m.id, some ch.id, some images, none, history⟩
      else
        let r := send_email fs smtpOk images
        if r.returned then
          ⟨some m.id, some ch.id, some images, some true, save_history history m.id⟩
        else
          ⟨some m.id, some ch.id, some images, some false, history⟩

/-- Python truthiness of an os.getenv result: None and "" are falsy. -/
def truthyEnv : Option String → Bool
  | none => false
  | some s => !(s == "")

/-- Whether the startup check at src/main.py lines 18-19 prints the
"[FATAL] Missing EMAIL_SENDER or EMAIL_APP_PASSWORD env vars." line. -/
def fatalConfigPrinted (sender appPassword : Option String) : Bool :=
  !truthyEnv sender || !truthyEnv appPassword

/-- Observable outcome of running the script top to bottom: whether the
fatal-config line was printed, and the result of main(). -/
structure ScriptResult where
  fatalPrinted : Bool
  run : MainResult
deriving DecidableEq

/-- The module top level of src/main.py: read the env vars, print the
fatal line when one is missing (line 19 — there is no exit), then run
main() unconditionally (lines 267-268). -/
def runScript (sender appPassword : Option String) (history : List String)
    (listing : List Manga) (chaptersOf : String → List Chapter)
    (pagesOf : String → List PageFile) (fs : String → Option Nat)
    (smtpOk : Bool) : ScriptResult :=
  ⟨fatalConfigPrinted sender appPassword,
   mainRun history listing chaptersOf pagesOf fs smtpOk⟩

/-! ### Lemmas about the budgeted packager -/

lemma totalSize_append (a b : List LoadedImage) :
    totalSize (a ++ b) = totalSize a + totalSize b := by
  simp [totalSize]

lemma totalSize_dropLast (l : List LoadedImage) (h : l ≠ []) :
    totalSize l.dropLast = totalSize l - ((l.getLast h).size : Int) := by
  have hsplit := List.dropLast_append_getLast h
  calc totalSize l.dropLast
      = totalSize l.dropLast + totalSize [l.getLast h] - totalSize [l.getLast h] := by
        ring
    _ = totalSize (l.dropLast ++ [l.getLast h]) - totalSize [l.getLast h] := by
        rw [totalSize_append]
    _ = totalSize l - ((l.getLast h).size : Int) := by
        rw [hsplit]; simp [totalSize]

lemma dropLast_front {α : Type} (l : List α) : l.dropLast <+: l := by
  by_cases hl : l = []
  · subst hl; exact ⟨[], rfl⟩
  · exact ⟨[l.getLast hl], List.dropLast_append_getLast hl⟩

lemma trimStep_pos (fuel : Nat) (loaded : List LoadedImage) (total : Int)
    (hc : MAX_EMAIL_SIZE_BYTES < total ∧ loaded ≠ []) :
    trimStep (fuel + 1) loaded total
      = trimStep fuel loaded.dropLast (total - ((loaded.getLast hc.2).size : Int)) := by
  simp only [trimStep]
  rw [dif_pos hc]

lemma trimStep_neg (fuel : Nat) (loaded : List LoadedImage) (total : Int)
    (hc : ¬(MAX_EMAIL_SIZE_BYTES < total ∧ loaded ≠ [])) :
    trimStep (fuel + 1) loaded total = (loaded, total) := by
  simp only [trimStep]
  rw [dif_neg hc]

/-- Invariant of the trimming loop: started on a list and its true total,
it yields a leading segment of the list; the returned total is the total
of the returned list; a non-empty result is within budget; and an input
already within budget is returned untouched. -/
lemma trimStep_spec (fuel : Nat) :
    ∀ (loaded : List LoadedImage) (total : Int),
      loaded.length ≤ fuel → total = totalSize loaded →
      (trimStep fuel loaded total).1 <+: loaded
      ∧ (trimStep fuel loaded total).2 = totalSize (trimStep fuel loaded total).1
      ∧ ((trimStep fuel loaded total).1 ≠ [] →
          (trimStep fuel loaded total).2 ≤ MAX_EMAIL_SIZE_BYTES)
      ∧ (total ≤ MAX_EMAIL_SIZE_BYTES → trimStep fuel loaded total = (loaded, total)) := by
  induction fuel with
  | zero =>
    intro loaded total hf ht
    have hl : loaded = [] := List.eq_nil_of_length_eq_zero (Nat.le_zero.mp hf)
    subst hl
    subst ht
    refine ⟨⟨[], rfl⟩, rfl, ?_, fun _ => rfl⟩
    intro hne
    exact absurd rfl hne
  | succ fuel ih =>
    intro loaded total hf ht
    by_cases hc : MAX_EMAIL_SIZE_BYTES < total ∧ loaded ≠ []
    · have hred := trimStep_pos fuel loaded total hc
      have htot : total - ((loaded.getLast hc.2).size : Int) = totalSize loaded.dropLast := by
        rw [totalSize_dropLast loaded hc.2]
        omega
      have hlen : loaded.dropLast.length ≤ fuel := by
        rw [List.length_dropLast]
        have : 1 ≤ loaded.length := List.length_pos.mpr hc.2
        omega
      obtain ⟨hp, he, hb, _⟩ :=
        ih loaded.dropLast (total - ((loaded.getLast hc.2).size : Int)) hlen htot
      rw [hred]
      refine ⟨hp.trans (dropLast_front loaded), he, hb, ?_⟩
      intro hle
      exact absurd hc.1 (not_lt.mpr hle)
    · have hred := trimStep_neg fuel loaded total hc
      rw [hred]
      refine ⟨⟨[], by simp⟩, ht, ?_, fun _ => rfl⟩
      intro hne
      rcases not_and_or.mp hc with h | h
      · exact not_lt.mp h
      · exact absurd hne (not_not.mpr (not_not.mp h))

/-- C1 (confirmed).  Budgeted Packager: with the fixed 18MB byte budget,
the trimming loop of send_email (sum sizes in order, then repeatedly drop
the last asset while the total exceeds the budget) returns a leading
segment of the input in original order; whenever the result is non-empty
its total size is at most the budget; and when the input's total is
already within the budget nothing is removed and the input comes back
unchanged with its total. -/
theorem budgeted_packager_spec (loaded : List LoadedImage) :
    MAX_EMAIL_SIZE_BYTES = 18 * 1024 * 1024
    ∧ (trimToBudget loaded).1 <+: loaded
    ∧ ((trimToBudget loaded).1 ≠ [] →
        totalSize (trimToBudget loaded).1 ≤ MAX_EMAIL_SIZE_BYTES)
    ∧ (totalSize loaded ≤ MAX_EMAIL_SIZE_BYTES →
        trimToBudget loaded = (loaded, totalSize loaded)) := by
  obtain ⟨hp, he, hb, hs⟩ :=
    trimStep_spec loaded.length loaded (totalSize loaded) le_rfl rfl
  exact ⟨rfl, hp, fun hne => he ▸ hb hne, hs⟩

/-- Witness for C1: a 100-byte image is within the 18MB budget, so the
packager returns it unchanged. -/
theorem budgeted_packager_spec_witness :
    trimToBudget [⟨"page", 100⟩] = ([⟨"page", 100⟩], totalSize [⟨"page", 100⟩]) :=
  (budgeted_packager_spec [⟨"page", 100⟩]).2.2.2 (by decide)

/-- C2 (confirmed).  When trimming empties the image list, send_email is a
hard failure: it returns False with no send attempted and no attachments;
in particular a single image whose size alone exceeds the budget trims to
the empty list and fails that way. -/
theorem packaging_empty_fails (fs : String → Option Nat) (smtpOk : Bool)
    (image_paths : List String)
    (h : (trimToBudget (loadImages fs image_paths)).1 = []) :
    send_email fs smtpOk image_paths = ⟨false, false, []⟩
    ∧ ∀ (p : String) (sz : Nat), MAX_EMAIL_SIZE_BYTES < (sz : Int) →
        (trimToBudget [⟨p, sz⟩]).1 = []
        ∧ send_email (fun q => if q = p then some sz else none) smtpOk [p]
            = ⟨false, false, []⟩ := by
  constructor
  · simp [send_email, h]
  · intro p sz hsz
    have hload : loadImages (fun q => if q = p then some sz else none) [p]
        = [⟨p, sz⟩] := by
      simp [loadImages]
    have hcond : MAX_EMAIL_SIZE_BYTES < totalSize [(⟨p, sz⟩ : LoadedImage)]
        ∧ ([(⟨p, sz⟩ : LoadedImage)] : List LoadedImage) ≠ [] := by
      refine ⟨?_, by simp⟩
      have : totalSize [(⟨p, sz⟩ : LoadedImage)] = (sz : Int) := by simp [totalSize]
      rw [this]; exact hsz
    have h1 : trimToBudget [(⟨p, sz⟩ : LoadedImage)]
        = trimStep 0 [] (totalSize [(⟨p, sz⟩ : LoadedImage)] - (sz : Int)) := by
      show trimStep (0 + 1) [⟨p, sz⟩] (totalSize [⟨p, sz⟩])
          = trimStep 0 [] (totalSize [⟨p, sz⟩] - (sz : Int))
      rw [trimStep_pos 0 _ _ hcond]
      rfl
    have htrim : (trimToBudget [(⟨p, sz⟩ : LoadedImage)]).1 = [] := by
      rw [h1]
      rfl
    refine ⟨htrim, ?_⟩
    simp [send_email, hload, htrim]

/-- Witness for C2: one 18MB+1-byte image cannot fit, send_email fails. -/
theorem packaging_empty_fails_witness :
    send_email (fun _ => some 18874369) true ["p"] = ⟨false, false, []⟩ :=
  (packaging_empty_fails (fun _ => some 18874369) true ["p"] (by decide)).1

/-! ### Lemmas about image loading and the send_email skip semantics -/

lemma loadImages_mem (fs : String → Option Nat) (paths : List String)
    (p : String) (s : Nat) :
    (⟨p, s⟩ : LoadedImage) ∈ loadImages fs paths ↔ (p ∈ paths ∧ fs p = some s) := by
  induction paths with
  | nil => simp [loadImages]
  | cons q rest ih =>
    cases hq : fs q with
    | none =>
      simp only [loadImages, hq, List.mem_cons, ih]
      constructor
      · rintro ⟨hp, hfs⟩
        exact ⟨Or.inr hp, hfs⟩
      · rintro ⟨hp | hp, hfs⟩
        · subst hp
          rw [hq] at hfs
          cases hfs
        · exact ⟨hp, hfs⟩
    | some sz =>
      simp only [loadImages, hq, List.mem_cons, ih, LoadedImage.mk.injEq]
      constructor
      · rintro (⟨rfl, rfl⟩ | ⟨hp, hfs⟩)
        · exact ⟨Or.inl rfl, hq⟩
        · exact ⟨Or.inr hp, hfs⟩
      · rintro ⟨hp | hp, hfs⟩
        · subst hp
          rw [hq] at hfs
          injection hfs with h2
          exact Or.inl ⟨rfl, h2.symm⟩
        · exact Or.inr ⟨hp, hfs⟩

/-- C10 (confirmed).  Implicit behavior of send_email: a path whose local
read fails is excluded from the loaded list (so from size accounting) and
from the attachments; the early False return with no send attempt happens
exactly when no readable image survives trimming; and whenever something
survives trimming the send is still attempted. -/
theorem unreadable_images_skipped (fs : String → Option Nat) (smtpOk : Bool)
    (image_paths : List String) :
    (∀ (p : String) (s : Nat),
        (⟨p, s⟩ : LoadedImage) ∈ loadImages fs image_paths
          ↔ (p ∈ image_paths ∧ fs p = some s))
    ∧ (∀ p : String, fs p = none →
        p ∉ (send_email fs smtpOk image_paths).attachments)
    ∧ (((send_email fs smtpOk image_paths).returned = false
          ∧ (send_email fs smtpOk image_paths).sendAttempted = false)
        ↔ (trimToBudget (loadImages fs image_paths)).1 = [])
    ∧ ((trimToBudget (loadImages fs image_paths)).1 ≠ [] →
        (send_email fs smtpOk image_paths).sendAttempted = true) := by
  refine ⟨fun p s => loadImages_mem fs image_paths p s, ?_, ?_, ?_⟩
  · intro p hp hmem
    by_cases ht : (trimToBudget (loadImages fs image_paths)).1 = []
    · simp [send_email, ht] at hmem
    · simp only [send_email, if_neg ht] at hmem
      obtain ⟨img, himg, rfl⟩ := List.mem_map.mp hmem
      have hpre : (trimToBudget (loadImages fs image_paths)).1
          <+: loadImages fs image_paths :=
        (trimStep_spec (loadImages fs image_paths).length
          (loadImages fs image_paths) (totalSize (loadImages fs image_paths))
          le_rfl rfl).1
      have hin : img ∈ loadImages fs image_paths := hpre.subset himg
      have : img.path ∈ image_paths ∧ fs img.path = some img.size :=
        (loadImages_mem fs image_paths img.path img.size).mp hin
      rw [hp] at this
      cases this.2
  · by_cases ht : (trimToBudget (loadImages fs image_paths)).1 = []
    · simp [send_email, ht]
    · simp [send_email, ht]
  · intro ht
    simp [send_email, ht]

/-- Witness for C10: an unreadable path is absent from the attachments of
the mail actually assembled. -/
theorem unreadable_images_skipped_witness :
    "bad" ∉ (send_email (fun q => if q = "good" then some 5 else none) true
        ["bad", "good"]).attachments :=
  (unreadable_images_skipped (fun q => if q = "good" then some 5 else none) true
      ["bad", "good"]).2.1 "bad" (by decide)

/-! ### History store claims -/

/-- C6 (confirmed).  The store-level add of save_history: adding twice
equals adding once; the id is a member afterwards; membership afterwards
is exactly membership before or equality with the added id; and a
duplicate-free store stays duplicate-free. -/
theorem history_add_spec (history : List String) (x : String) :
    save_history (save_history history x) x = save_history history x
    ∧ x ∈ save_history history x
    ∧ (∀ y : String, y ∈ save_history history x ↔ (y ∈ history ∨ y = x))
    ∧ (history.Nodup → (save_history history x).Nodup) := by
  refine ⟨?_, ?_, ?_, ?_⟩
  · by_cases hx : x ∈ history
    · simp [save_history, hx]
    · simp [save_history, hx]
  · by_cases hx : x ∈ history
    · simp [save_history, hx]
    · simp [save_history, hx]
  · intro y
    by_cases hx : x ∈ history
    · simp only [save_history, if_pos hx]
      constructor
      · exact fun h => Or.inl h
      · rintro (h | rfl)
        · exact h
        · exact hx
    · simp [save_history, hx, List.mem_append]
  · intro hnd
    by_cases hx : x ∈ history
    · simpa [save_history, hx] using hnd
    · simp [save_history, hx, List.nodup_append, hnd, List.disjoint_singleton]

/-- Witness for C6: adding an id twice to a concrete store equals adding
it once. -/
theorem history_add_spec_witness :
    save_history (save_history ["a"] "b") "b" = save_history ["a"] "b" :=
  (history_add_spec ["a"] "b").1

/-- C7 counterexample.  The claim says load_history never raises, but the
except clause at src/main.py line 51 only catches json.JSONDecodeError:
when the history file exists and open()/read raise anything else
(PermissionError, IsADirectoryError, UnicodeDecodeError on non-UTF-8
bytes), the exception escapes load_history. -/
theorem load_history_raises_counterexample :
    load_history HistFile.unreadable
      = Except.error "uncaught exception from open or read" := rfl

/-- C7 amended (corrected).  Load semantics actually implemented: a
missing file loads as the empty set without warning; JSON-malformed
content loads as the empty set with the corruption warning; parsed
content is returned as is.  (The unreadable case raises, per the
counterexample.) -/
theorem load_history_spec (ids : List String) :
    load_history HistFile.missing = Except.ok []
    ∧ load_history_warned HistFile.missing = false
    ∧ load_history HistFile.malformed = Except.ok []
    ∧ load_history_warned HistFile.malformed = true
    ∧ load_history (HistFile.parsed ids) = Except.ok ids :=
  ⟨rfl, rfl, rfl, rfl, rfl⟩

/-! ### Selector claims -/

lemma selector_eq_find (history : List String) (listing : List Manga) :
    get_fresh_trending_manga history listing
      = listing.find? (fun m => decide (¬ m.id ∈ history)) := by
  induction listing with
  | nil => rfl
  | cons m rest ih =>
    by_cases hm : m.id ∈ history
    · rw [List.find?_cons_of_neg _ (by simp [hm])]
      simpa [get_fresh_trending_manga, hm] using ih
    · rw [List.find?_cons_of_pos _ (by simp [hm])]
      simp [get_fresh_trending_manga, hm]

/-- C4 (confirmed).  Mode B selection: get_fresh_trending_manga returns
the first listed manga whose id is absent from history; it returns None
exactly when every listed id is in history; and on a 3-item listing whose
middle id is in history it returns item 1 when fresh, else item 3 when
fresh, else None. -/
theorem selector_modeB_spec (history : List String) (listing : List Manga) :
    get_fresh_trending_manga history listing
      = listing.find? (fun m => decide (¬ m.id ∈ history))
    ∧ (get_fresh_trending_manga history listing = none
        ↔ ∀ m ∈ listing, m.id ∈ history)
    ∧ (∀ a b c : Manga, b.id ∈ history →
        get_fresh_trending_manga history [a, b, c]
          = (if a.id ∈ history then (if c.id ∈ history then none else some c)
             else some a)) := by
  refine ⟨selector_eq_find history listing, ?_, ?_⟩
  · rw [selector_eq_find, List.find?_eq_none]
    constructor
    · intro hall m hm
      simpa using hall m hm
    · intro hall m hm
      simpa using hall m hm
  · intro a b c hb
    by_cases ha : a.id ∈ history
    · by_cases hc : c.id ∈ history
      · simp [get_fresh_trending_manga, ha, hb, hc]
      · simp [get_fresh_trending_manga, ha, hb, hc]
    · simp [get_fresh_trending_manga, ha]

/-- Witness for C4: with history containing only the middle item's id,
the first item is selected. -/
theorem selector_modeB_spec_witness :
    get_fresh_trending_manga ["b"] [⟨"a", "A"⟩, ⟨"b", "B"⟩, ⟨"c", "C"⟩]
      = some ⟨"a", "A"⟩ := by
  have h := (selector_modeB_spec ["b"] []).2.2 ⟨"a", "A"⟩ ⟨"b", "B"⟩ ⟨"c", "C"⟩
    (by decide)
  exact h.trans (by decide)

lemma chapter_eq_find (chapters : List Chapter) :
    get_first_chapter chapters
      = chapters.find? (fun c => chapterEligible c.chapter) := by
  induction chapters with
  | nil => rfl
  | cons c rest ih =>
    cases hc : chapterEligible c.chapter
    · rw [@List.find?_cons_of_neg _ (fun c2 => chapterEligible c2.chapter) c rest
        (by simp [hc])]
      simpa [get_first_chapter, hc] using ih
    · rw [@List.find?_cons_of_pos _ (fun c2 => chapterEligible c2.chapter) c rest hc]
      simp [get_first_chapter, hc]

/-- C5 (confirmed).  Chapter selection: get_first_chapter returns the
first chapter of the listing whose declared number passes the eligibility
test of line 119, and returns None exactly when none passes; the declared
numbers "3", "3.5", "0" are eligible while "" and "special" are not. -/
theorem chapter_selection_spec (chapters : List Chapter) :
    get_first_chapter chapters
      = chapters.find? (fun c => chapterEligible c.chapter)
    ∧ (get_first_chapter chapters = none
        ↔ ∀ c ∈ chapters, chapterEligible c.chapter = false)
    ∧ chapterEligible "3" = true ∧ chapterEligible "3.5" = true
    ∧ chapterEligible "0" = true ∧ chapterEligible "" = false
    ∧ chapterEligible "special" = false := by
  refine ⟨chapter_eq_find chapters, ?_, by decide, by decide, by decide,
    by decide, by decide⟩
  rw [chapter_eq_find, List.find?_eq_none]
  constructor
  · intro hall c hc
    simpa using hall c hc
  · intro hall c hc
    simp [hall c hc]

/-- Witness for C5: the declared number 3.5 is eligible. -/
theorem chapter_selection_spec_witness :
    chapterEligible "3.5" = true :=
  (chapter_selection_spec []).2.2.2.1

/-! ### Lemmas about the fetcher -/

lemma retryPage_tried (atts : List Attempt) : (retryPage atts).tried ≤ atts.length := by
  induction atts with
  | nil => simp [retryPage]
  | cons a rest ih =>
    cases a
    · simp [retryPage]
    · simp only [retryPage, List.length_cons]
      omega
    · simp only [retryPage, List.length_cons]
      omega

lemma downloadLoop_break (files : List PageFile) (count : Nat)
    (h : IMAGES_TO_DOWNLOAD ≤ count) : (downloadLoop count files).1 = [] := by
  cases files with
  | nil => rfl
  | cons f rest => simp [downloadLoop, h]

lemma downloadLoop_skip (f : PageFile) (rest : List PageFile) (count : Nat)
    (h : (retryPage (f.attempts.take 2)).success = false) :
    (downloadLoop count (f :: rest)).1 = (downloadLoop count rest).1 := by
  by_cases hcount : IMAGES_TO_DOWNLOAD ≤ count
  · rw [downloadLoop_break _ _ hcount, downloadLoop_break _ _ hcount]
  · simp [downloadLoop, hcount, h]

lemma downloadLoop_sublist (files : List PageFile) :
    ∀ count : Nat, ((downloadLoop count files).1).Sublist (files.map PageFile.filename) := by
  induction files with
  | nil =>
    intro count
    exact List.nil_sublist _
  | cons f rest ih =>
    intro count
    by_cases hcount : IMAGES_TO_DOWNLOAD ≤ count
    · rw [downloadLoop_break _ _ hcount]
      exact List.nil_sublist _
    · cases hr : (retryPage (f.attempts.take 2)).success
      · rw [downloadLoop_skip f rest count hr, List.map_cons]
        exact List.Sublist.cons _ (ih count)
      · have hred : (downloadLoop count (f :: rest)).1
            = f.filename :: (downloadLoop (count + 1) rest).1 := by
          simp [downloadLoop, hcount, hr]
        rw [hred, List.map_cons]
        exact List.Sublist.cons₂ _ (ih (count + 1))

lemma downloadLoop_length (files : List PageFile) :
    ∀ count : Nat,
      (downloadLoop count files).1.length ≤ IMAGES_TO_DOWNLOAD - count := by
  induction files with
  | nil =>
    intro count
    simp [downloadLoop]
  | cons f rest ih =>
    intro count
    by_cases hcount : IMAGES_TO_DOWNLOAD ≤ count
    · rw [downloadLoop_break _ _ hcount]
      simp
    · cases hr : (retryPage (f.attempts.take 2)).success
      · rw [downloadLoop_skip f rest count hr]
        exact ih count
      · have hred : (downloadLoop count (f :: rest)).1
            = f.filename :: (downloadLoop (count + 1) rest).1 := by
          simp [downloadLoop, hcount, hr]
        rw [hred]
        have hnext := ih (count + 1)
        simp only [List.length_cons]
        omega

/-- C8 counterexample.  The claim asserts a fixed delay between a failed
attempt and its retry, but time.sleep only runs in the except clause
(src/main.py line 167): a first attempt answered with a non-200 status is
a failed attempt, the page is retried (two attempts are made), and no
sleep at all happens. -/
theorem fetcher_no_delay_counterexample :
    download_images [⟨"page1", [Attempt.httpFail, Attempt.ok]⟩] = (["page1"], 0)
    ∧ (retryPage [Attempt.httpFail, Attempt.ok]).tried = 2 := by
  constructor <;> decide

/-- C8 amended (corrected).  Fetcher contract actually implemented: pages
are retrieved in listing order (the result is an order-preserving
selection of the listing) up to the configured IMAGES_TO_DOWNLOAD = 10;
each page is attempted at most twice; a page whose attempts are exhausted
is skipped and the loop continues, so a shorter list is returned as a
normal outcome; but the one-second delay runs only after an attempt that
raised an exception (including a final one with no retry after it) — an
attempt that merely got a non-200 response is retried with no delay. -/
theorem fetcher_spec (files : List PageFile) :
    ((download_images files).1).Sublist (files.map PageFile.filename)
    ∧ (download_images files).1.length ≤ IMAGES_TO_DOWNLOAD
    ∧ IMAGES_TO_DOWNLOAD = 10
    ∧ (∀ (f : PageFile) (rest : List PageFile),
        (retryPage (f.attempts.take 2)).success = false →
        (download_images (f :: rest)).1 = (download_images rest).1)
    ∧ (∀ atts : List Attempt, (retryPage atts).tried ≤ atts.length)
    ∧ (∀ a1 a2 : Attempt,
        (retryPage [a1, a2]).tried ≤ 2
        ∧ (retryPage [a1, a2]).sleeps
            = (if a1 = Attempt.exn then 1 else 0)
              + (if a1 ≠ Attempt.ok ∧ a2 = Attempt.exn then 1 else 0)) := by
  refine ⟨downloadLoop_sublist files 0, ?_, rfl, ?_, retryPage_tried, ?_⟩
  · simpa using downloadLoop_length files 0
  · intro f rest h
    exact downloadLoop_skip f rest 0 h
  · intro a1 a2
    cases a1 <;> cases a2 <;> decide

/-- Witness for C8's amended theorem: a page failing both attempts is
skipped and the rest of the listing is still downloaded. -/
theorem fetcher_spec_witness :
    (download_images [⟨"a", [Attempt.exn, Attempt.exn]⟩, ⟨"b", [Attempt.ok]⟩]).1
      = (download_images [⟨"b", [Attempt.ok]⟩]).1 :=
  (fetcher_spec []).2.2.2.1 ⟨"a", [Attempt.exn, Attempt.exn]⟩ [⟨"b", [Attempt.ok]⟩]
    (by decide)

/-! ### Orchestrator claims -/

lemma save_history_self_mem (history : List String) (x : String) :
    x ∈ save_history history x := by
  by_cases hx : x ∈ history <;> simp [save_history, hx]

/-- C3 (confirmed).  Mode B commit rule: when the pipeline reaches the
send stage, a send reporting success commits the selected id via
save_history (so the id is in the store afterwards), a send reporting
failure leaves the store untouched and the item still selected by the
next run over the same listing, and the id is in the store afterwards
exactly when the send succeeded or the id was already stored. -/
theorem modeB_commit_spec (history : List String) (listing : List Manga)
    (chaptersOf : String → List Chapter) (pagesOf : String → List PageFile)
    (fs : String → Option Nat) (smtpOk : Bool) (m : Manga) (ch : Chapter)
    (hm : get_fresh_trending_manga history listing = some m)
    (hch : get_first_chapter (chaptersOf m.id) = some ch)
    (himg : (download_images (pagesOf ch.id)).1 ≠ []) :
    ((mainRun history listing chaptersOf pagesOf fs smtpOk).emailResult = some true →
        (mainRun history listing chaptersOf pagesOf fs smtpOk).history
          = save_history history m.id
        ∧ m.id ∈ (mainRun history listing chaptersOf pagesOf fs smtpOk).history)
    ∧ ((mainRun history listing chaptersOf pagesOf fs smtpOk).emailResult = some false →
        (mainRun history listing chaptersOf pagesOf fs smtpOk).history = history
        ∧ get_fresh_trending_manga
            (mainRun history listing chaptersOf pagesOf fs smtpOk).history listing
          = some m)
    ∧ (m.id ∈ (mainRun history listing chaptersOf pagesOf fs smtpOk).history
        ↔ ((mainRun history listing chaptersOf pagesOf fs smtpOk).emailResult = some true
           ∨ m.id ∈ history)) := by
  cases hr : (send_email fs smtpOk (download_images (pagesOf ch.id)).1).returned
  · have hred : mainRun history listing chaptersOf pagesOf fs smtpOk
        = ⟨some m.id, some ch.id, some (download_images (pagesOf ch.id)).1,
           some false, history⟩ := by
      simp [mainRun, hm, hch, himg, hr]
    rw [hred]
    refine ⟨fun hcontra => by simp at hcontra, fun _ => ⟨rfl, hm⟩, ?_⟩
    constructor
    · exact fun hmem => Or.inr hmem
    · rintro (hfalse | hmem)
      · simp at hfalse
      · exact hmem
  · have hred : mainRun history listing chaptersOf pagesOf fs smtpOk
        = ⟨some m.id, some ch.id, some (download_images (pagesOf ch.id)).1,
           some true, save_history history m.id⟩ := by
      simp [mainRun, hm, hch, himg, hr]
    rw [hred]
    refine ⟨fun _ => ⟨rfl, save_history_self_mem history m.id⟩,
      fun hcontra => by simp at hcontra, ?_⟩
    constructor
    · exact fun _ => Or.inl rfl
    · exact fun _ => save_history_self_mem history m.id

/-- A ten-page chapter whose every page downloads on the first attempt;
used by the concrete end-to-end scenarios. -/
def tenOkPages : List PageFile :=
  [⟨"p01", [Attempt.ok]⟩, ⟨"p02", [Attempt.ok]⟩, ⟨"p03", [Attempt.ok]⟩,
   ⟨"p04", [Attempt.ok]⟩, ⟨"p05", [Attempt.ok]⟩, ⟨"p06", [Attempt.ok]⟩,
   ⟨"p07", [Attempt.ok]⟩, ⟨"p08", [Attempt.ok]⟩, ⟨"p09", [Attempt.ok]⟩,
   ⟨"p10", [Attempt.ok]⟩]

/-- Witness for C3, the end-to-end success scenario of the spec: history
holds A, the listing ranks A before B, B's chapter 1 is selected, ten 1MB
pages fit the 18MB budget, the send succeeds, and afterwards the store
contains B's id. -/
theorem modeB_commit_spec_witness :
    "B" ∈ (mainRun ["A"] [⟨"A", "TA"⟩, ⟨"B", "TB"⟩]
        (fun _ => [⟨"c1", "1"⟩, ⟨"c2", "2"⟩]) (fun _ => tenOkPages)
        (fun _ => some 1048576) true).history := by
  have h := modeB_commit_spec ["A"] [⟨"A", "TA"⟩, ⟨"B", "TB"⟩]
      (fun _ => [⟨"c1", "1"⟩, ⟨"c2", "2"⟩]) (fun _ => tenOkPages)
      (fun _ => some 1048576) true ⟨"B", "TB"⟩ ⟨"c1", "1"⟩
      (by decide) (by decide) (by decide)
  exact (h.1 (by decide)).2

/-- C9 counterexample.  With EMAIL_SENDER unset the startup check prints
its fatal line but the script does not stop: main() still runs the whole
pipeline — a manga is selected, a chapter is found, ten pages are
downloaded — and only the send fails, so a partial run very much is
attempted. -/
theorem config_failure_counterexample :
    (runScript none (some "pw") ["A"] [⟨"A", "TA"⟩, ⟨"B", "TB"⟩]
        (fun _ => [⟨"c1", "1"⟩, ⟨"c2", "2"⟩]) (fun _ => tenOkPages)
        (fun _ => some 1048576) false).fatalPrinted = true
    ∧ (runScript none (some "pw") ["A"] [⟨"A", "TA"⟩, ⟨"B", "TB"⟩]
        (fun _ => [⟨"c1", "1"⟩, ⟨"c2", "2"⟩]) (fun _ => tenOkPages)
        (fun _ => some 1048576) false).run.downloaded
      = some ["p01", "p02", "p03", "p04", "p05", "p06", "p07", "p08", "p09", "p10"]
    ∧ (runScript none (some "pw") ["A"] [⟨"A", "TA"⟩, ⟨"B", "TB"⟩]
        (fun _ => [⟨"c1", "1"⟩, ⟨"c2", "2"⟩]) (fun _ => tenOkPages)
        (fun _ => some 1048576) false).run.emailResult = some false := by
  refine ⟨?_, ?_, ?_⟩ <;> decide

/-- C9 amended (corrected).  A missing sender or credential makes the
startup check emit the fatal message, but the process does not refuse to
run: main() executes unconditionally and the pipeline's behavior does not
depend on the sender or credential values at all (only the send
transport, modelled by smtpOk, would fail). -/
theorem config_failure_spec (sender appPassword sender2 appPassword2 : Option String)
    (history : List String) (listing : List Manga)
    (chaptersOf : String → List Chapter) (pagesOf : String → List PageFile)
    (fs : String → Option Nat) (smtpOk : Bool) :
    (runScript sender appPassword history listing chaptersOf pagesOf fs
        smtpOk).fatalPrinted
      = (!truthyEnv sender || !truthyEnv appPassword)
    ∧ (runScript sender appPassword history listing chaptersOf pagesOf fs
        smtpOk).run
      = (runScript sender2 appPassword2 history listing chaptersOf pagesOf fs
          smtpOk).run :=
  ⟨rfl, rfl⟩

end MangaJob
